import Mathlib

/-!
# Verification of the GPU tasks context scheduler

Shallow embedding of `Source/Engine/Graphics/Async/GPUTasksContext.cpp`
(Flax Engine). The context keeps an ordered pending list `_tasksDone`,
a monotonic sync-point counter `_currentSyncPoint` (initialized to 10),
and a completion counter `_totalTasksDoneCount`.

The compile-time toggle `GPU_TASKS_USE_DEDICATED_CONTEXT` is `0` in the
source, so the dedicated-context branches of the constructor, destructor,
`OnFrameBegin` and `OnFrameEnd` are dead code and are not modelled.

Tasks (`GPUTask`) and the `Array` container live outside the provided
sources; their behaviour is modelled from the spec where noted. A task is
identified by `id` (standing for its C++ object identity / pointer), and
its `Sync`/`Execute` transitions are kept abstract via per-task result
states, since the scheduler observes tasks only through
`GetState`/`GetSyncPoint`/`Sync`/`Execute`/`CancelSync`.

Observable calls made by the context (visiting a pending slot, calling
`Sync`/`Execute`/`CancelSync` on a task, emitting a warning log line) are
recorded in a trace of `TraceEvent`s so that claims about *which* calls
happen, and in what order, are statable.
-/

/-- Task lifecycle states (modelled from the spec: the task state machine
with `Queued`, running/`Executing`, `Finished`, `Canceled`, plus initial
and failure states; only equality with `finished` matters to the
scheduler). -/
inductive TaskState where
  | created
  | failed
  | canceled
  | queued
  | running
  | finished
deriving DecidableEq, Repr

/-- A GPU task as seen by the scheduler. `id` models C++ object identity.
`onSyncState` / `onExecuteState` are the (abstract) states the task's own
`Sync()` / `Execute()` bodies leave it in; the scheduler never inspects
them directly, it only calls the methods. -/
structure GPUTask where
  id : Nat
  syncPoint : Nat
  state : TaskState
  onSyncState : TaskState
  onExecuteState : TaskState
deriving DecidableEq, Repr

/-- Modelled from the spec: `GPUTask::Sync` ("if not yet `Finished`,
forces completion to be observed now; transitions to `Finished`. Must be
idempotent"). The post-state is the task's abstract `onSyncState`, so a
task whose sync genuinely completes has `onSyncState = finished`. -/
def GPUTask.sync (t : GPUTask) : GPUTask :=
  if t.state = TaskState.finished then t else { t with state := t.onSyncState }

/-- Modelled from the spec: `GPUTask::Execute` ("transitions out of
`Queued`; the task's state may advance to `Executing`/`Finished` within
this call"). The post-state is the task's abstract `onExecuteState`. -/
def GPUTask.execute (t : GPUTask) : GPUTask :=
  { t with state := t.onExecuteState }

/-- Observable calls the context makes, recorded in traces.
`visit i` marks one iteration of the `OnFrameBegin` sweep loop examining
the pending task with identity `i`. -/
inductive TraceEvent where
  | visit (id : Nat)
  | sync (id : Nat)
  | execute (id : Nat)
  | warn (id : Nat)
  | cancelSync (id : Nat)
deriving DecidableEq, Repr

/-- The scheduler state: `GPUTasksContext`'s fields `_tasksDone`,
`_currentSyncPoint`, `_totalTasksDoneCount`. -/
structure GPUTasksContext where
  tasksDone : List GPUTask
  currentSyncPoint : Nat
  totalTasksDoneCount : Nat
deriving DecidableEq, Repr

/-- Modelled from the spec: `Array::Remove(item)` used by `OnCancelSync`
("removes it from `pending` if present (no-op if absent)"); removes the
first occurrence of the task identity, compared by pointer in C++, hence
by `id` here. -/
def removeTask : List GPUTask → GPUTask → List GPUTask
  | [], _ => []
  | u :: rest, t => if u.id = t.id then rest else u :: removeTask rest t

namespace GPUTasksContext

/-- `GPUTasksContext::GPUTasksContext`: empty pending list, counter
"bumped up to prevent initial state problems with frame index comparison"
to the literal `10`, zero completed. -/
def init : GPUTasksContext :=
  { tasksDone := [], currentSyncPoint := 10, totalTasksDoneCount := 0 }

/-- `GPUTasksContext::Run`: `_tasksDone.Add(task); task->Execute(this);`.
The list holds the task by reference, so at return the appended entry
reflects the executed task. The trace records the `Execute` call. -/
def Run (ctx : GPUTasksContext) (t : GPUTask) : GPUTasksContext × List TraceEvent :=
  ({ ctx with tasksDone := ctx.tasksDone ++ [t.execute] }, [TraceEvent.execute t.id])

/-- `GPUTasksContext::OnCancelSync`: `_tasksDone.Remove(task);` then a
warning log line. It does not call the task's `CancelSync` itself. -/
def OnCancelSync (ctx : GPUTasksContext) (t : GPUTask) : GPUTasksContext × List TraceEvent :=
  ({ ctx with tasksDone := removeTask ctx.tasksDone t }, [TraceEvent.warn t.id])

end GPUTasksContext

/-- The `OnFrameBegin` sweep loop, exactly as written in the source:
`for (i = 0; i < _tasksDone.Count(); i++)` fetches `_tasksDone[i]`,
calls `Sync()` when `GetSyncPoint() <= _currentSyncPoint` and the state
is not `Finished` (mutating the task in place, modelled by `List.set`),
then, if the state is now `Finished`, does `RemoveAt(i); i--;` and bumps
the completed counter. Returns (final list, completed count, trace). -/
def sweepLoop (tasks : List GPUTask) (sp : Nat) (i : Nat) :
    List GPUTask × Nat × List TraceEvent :=
  if h : i < tasks.length then
    let t := tasks.get ⟨i, h⟩
    if t.syncPoint ≤ sp ∧ t.state ≠ TaskState.finished then
      let t2 := t.sync
      if t2.state = TaskState.finished then
        let r := sweepLoop ((tasks.set i t2).eraseIdx i) sp i
        (r.1, r.2.1 + 1, TraceEvent.visit t.id :: TraceEvent.sync t.id :: r.2.2)
      else
        let r := sweepLoop (tasks.set i t2) sp (i + 1)
        (r.1, r.2.1, TraceEvent.visit t.id :: TraceEvent.sync t.id :: r.2.2)
    else
      if t.state = TaskState.finished then
        let r := sweepLoop (tasks.eraseIdx i) sp i
        (r.1, r.2.1 + 1, TraceEvent.visit t.id :: r.2.2)
      else
        let r := sweepLoop tasks sp (i + 1)
        (r.1, r.2.1, TraceEvent.visit t.id :: r.2.2)
  else
    (tasks, 0, [])
termination_by tasks.length - i
decreasing_by
  all_goals simp [List.length_eraseIdx, List.length_set, *]
  all_goals omega

/-- Structural companion of `sweepLoop`: processing the remaining suffix
of the pending list one task at a time. Used to reason about the index
loop via `sweepLoop_eq_go`. -/
def sweepGo : List GPUTask → Nat → List GPUTask × Nat × List TraceEvent
  | [], _ => ([], 0, [])
  | t :: rest, sp =>
    if t.syncPoint ≤ sp ∧ t.state ≠ TaskState.finished then
      let t2 := t.sync
      if t2.state = TaskState.finished then
        let r := sweepGo rest sp
        (r.1, r.2.1 + 1, TraceEvent.visit t.id :: TraceEvent.sync t.id :: r.2.2)
      else
        let r := sweepGo rest sp
        (t2 :: r.1, r.2.1, TraceEvent.visit t.id :: TraceEvent.sync t.id :: r.2.2)
    else
      if t.state = TaskState.finished then
        let r := sweepGo rest sp
        (r.1, r.2.1 + 1, TraceEvent.visit t.id :: r.2.2)
      else
        let r := sweepGo rest sp
        (t :: r.1, r.2.1, TraceEvent.visit t.id :: r.2.2)

/-- Projects the task identity out of a `visit` event. -/
def visitOf : TraceEvent → Option Nat
  | TraceEvent.visit j => some j
  | _ => none

namespace GPUTasksContext

/-- `GPUTasksContext::OnFrameBegin`: `++_currentSyncPoint;` then the
sweep loop over `_tasksDone` starting at index 0. -/
def OnFrameBegin (ctx : GPUTasksContext) : GPUTasksContext × List TraceEvent :=
  let sp := ctx.currentSyncPoint + 1
  let r := sweepLoop ctx.tasksDone sp 0
  ({ tasksDone := r.1, currentSyncPoint := sp,
     totalTasksDoneCount := ctx.totalTasksDoneCount + r.2.1 }, r.2.2)

/-- `GPUTasksContext::OnFrameEnd`: empty body with the dedicated-context
toggle off. -/
def OnFrameEnd (ctx : GPUTasksContext) : GPUTasksContext × List TraceEvent :=
  (ctx, [])

end GPUTasksContext

/-- The destructor's loop over the copied task list: one warning log line
and one `CancelSync()` call per task, in order. -/
def destroyLoop : List GPUTask → List TraceEvent
  | [] => []
  | t :: rest => TraceEvent.warn t.id :: TraceEvent.cancelSync t.id :: destroyLoop rest

namespace GPUTasksContext

/-- `GPUTasksContext::~GPUTasksContext`: copies `_tasksDone`, clears it,
then for each copied task logs a warning and calls `CancelSync()`. -/
def destroy (ctx : GPUTasksContext) : GPUTasksContext × List TraceEvent :=
  ({ ctx with tasksDone := [] }, destroyLoop ctx.tasksDone)

end GPUTasksContext

/-- One operation of the context's public mutating interface. -/
inductive Op where
  | run (t : GPUTask)
  | cancelSync (t : GPUTask)
  | frameBegin
  | frameEnd

/-- Applies one operation to the context state. -/
def applyOp (ctx : GPUTasksContext) : Op → GPUTasksContext
  | Op.run t => (ctx.Run t).1
  | Op.cancelSync t => (ctx.OnCancelSync t).1
  | Op.frameBegin => ctx.OnFrameBegin.1
  | Op.frameEnd => (ctx.OnFrameEnd).1

/-- Applies a sequence of operations, in order. -/
def applyOps (ctx : GPUTasksContext) : List Op → GPUTasksContext
  | [] => ctx
  | op :: ops => applyOps (applyOp ctx op) ops

/-! ## Relating the index-based sweep loop to its structural companion -/

lemma get_append_mid (p : List GPUTask) (t : GPUTask) (rest : List GPUTask)
    (h : p.length < (p ++ t :: rest).length) :
    (p ++ t :: rest).get ⟨p.length, h⟩ = t := by
  induction p with
  | nil => rfl
  | cons a p ih => simpa using ih (by simp)

lemma set_append_mid (p : List GPUTask) (t u : GPUTask) (rest : List GPUTask) :
    (p ++ t :: rest).set p.length u = p ++ u :: rest := by
  induction p with
  | nil => rfl
  | cons a p ih => simp [List.set, ih]

lemma eraseIdx_append_mid (p : List GPUTask) (t : GPUTask) (rest : List GPUTask) :
    (p ++ t :: rest).eraseIdx p.length = p ++ rest := by
  induction p with
  | nil => rfl
  | cons a p ih => simp [List.eraseIdx, ih]

/-- The index loop of `OnFrameBegin`, started at index `p.length` on a
list whose first `p.length` elements are `p`, leaves `p` in place and
behaves like the structural sweep on the rest: each remaining element is
visited exactly once, in order, despite the `RemoveAt(i); i--` pattern. -/
lemma sweepLoop_eq_go (rest : List GPUTask) (sp : Nat) (p : List GPUTask) :
    sweepLoop (p ++ rest) sp p.length =
      (p ++ (sweepGo rest sp).1, (sweepGo rest sp).2.1, (sweepGo rest sp).2.2) := by
  induction rest generalizing p with
  | nil =>
    rw [sweepLoop]
    simp [sweepGo]
  | cons t rest ih =>
    rw [sweepLoop]
    have hlt : p.length < (p ++ t :: rest).length := by simp
    rw [dif_pos hlt]
    simp only [get_append_mid p t rest hlt]
    by_cases hc : t.syncPoint ≤ sp ∧ t.state ≠ TaskState.finished
    · rw [if_pos hc]
      by_cases hf : t.sync.state = TaskState.finished
      · rw [if_pos hf]
        rw [set_append_mid, eraseIdx_append_mid, ih p]
        simp [sweepGo, hc, hf]
      · rw [if_neg hf]
        rw [set_append_mid]
        have := ih (p ++ [t.sync])
        simp only [List.append_assoc, List.singleton_append, List.length_append,
          List.length_cons, List.length_nil] at this
        rw [this]
        simp [sweepGo, hc, hf]
    · rw [if_neg hc]
      by_cases hf : t.state = TaskState.finished
      · rw [if_pos hf]
        rw [eraseIdx_append_mid, ih p]
        simp [sweepGo, hc, hf]
      · rw [if_neg hf]
        have := ih (p ++ [t])
        simp only [List.append_assoc, List.singleton_append, List.length_append,
          List.length_cons, List.length_nil] at this
        rw [this]
        have hsp : ¬t.syncPoint ≤ sp := fun hle => hc ⟨hle, hf⟩
        simp [sweepGo, hsp, hf]

/-- `OnFrameBegin` in terms of the structural sweep. -/
lemma OnFrameBegin_eq (ctx : GPUTasksContext) :
    ctx.OnFrameBegin =
      ({ tasksDone := (sweepGo ctx.tasksDone (ctx.currentSyncPoint + 1)).1,
         currentSyncPoint := ctx.currentSyncPoint + 1,
         totalTasksDoneCount :=
           ctx.totalTasksDoneCount + (sweepGo ctx.tasksDone (ctx.currentSyncPoint + 1)).2.1 },
       (sweepGo ctx.tasksDone (ctx.currentSyncPoint + 1)).2.2) := by
  have h := sweepLoop_eq_go ctx.tasksDone (ctx.currentSyncPoint + 1) []
  simp only [List.nil_append, List.length_nil] at h
  simp [GPUTasksContext.OnFrameBegin, h]

/-! ## Properties of the structural sweep -/

/-- Every pending slot is visited exactly once, in submission order. -/
lemma sweepGo_visits (l : List GPUTask) (sp : Nat) :
    ((sweepGo l sp).2.2).filterMap visitOf = l.map GPUTask.id := by
  induction l with
  | nil => simp [sweepGo]
  | cons t rest ih =>
    simp only [sweepGo]
    split_ifs <;> simp [visitOf, ih]

/-- Every task kept by the sweep is in a non-`Finished` state. -/
lemma sweepGo_kept_not_finished (l : List GPUTask) (sp : Nat) :
    ∀ u ∈ (sweepGo l sp).1, u.state ≠ TaskState.finished := by
  induction l with
  | nil => simp [sweepGo]
  | cons t rest ih =>
    simp only [sweepGo]
    split_ifs with hc hf hf
    · exact ih
    · intro u hu
      rcases List.mem_cons.mp hu with rfl | hmem
      · exact hf
      · exact ih u hmem
    · exact ih
    · intro u hu
      rcases List.mem_cons.mp hu with rfl | hmem
      · exact hf
      · exact ih u hmem

/-- Kept tasks plus completed tasks account for the whole pending list. -/
lemma sweepGo_length (l : List GPUTask) (sp : Nat) :
    (sweepGo l sp).1.length + (sweepGo l sp).2.1 = l.length := by
  induction l with
  | nil => simp [sweepGo]
  | cons t rest ih =>
    simp only [sweepGo]
    split_ifs <;> simp <;> omega

/-- A `Sync()` call in the sweep trace always originates from some
pending task whose sync point has been reached and whose state was not
yet `Finished`. -/
lemma sweepGo_sync_src (l : List GPUTask) (sp : Nat) (j : Nat)
    (h : TraceEvent.sync j ∈ (sweepGo l sp).2.2) :
    ∃ t, t ∈ l ∧ t.id = j ∧ t.syncPoint ≤ sp ∧ t.state ≠ TaskState.finished := by
  induction l with
  | nil => simp [sweepGo] at h
  | cons t rest ih =>
    by_cases hc : t.syncPoint ≤ sp ∧ t.state ≠ TaskState.finished
    · by_cases hf : t.sync.state = TaskState.finished
      · simp only [sweepGo, if_pos hc, if_pos hf, List.mem_cons] at h
        rcases h with h | h | h
        · exact absurd h (by simp)
        · have hj : t.id = j := by
            cases h
            rfl
          exact ⟨t, List.mem_cons_self t rest, hj, hc.1, hc.2⟩
        · obtain ⟨u, hu, rest'⟩ := ih h
          exact ⟨u, List.mem_cons_of_mem t hu, rest'⟩
      · simp only [sweepGo, if_pos hc, if_neg hf, List.mem_cons] at h
        rcases h with h | h | h
        · exact absurd h (by simp)
        · have hj : t.id = j := by
            cases h
            rfl
          exact ⟨t, List.mem_cons_self t rest, hj, hc.1, hc.2⟩
        · obtain ⟨u, hu, rest'⟩ := ih h
          exact ⟨u, List.mem_cons_of_mem t hu, rest'⟩
    · by_cases hf : t.state = TaskState.finished
      · simp only [sweepGo, if_neg hc, if_pos hf, List.mem_cons] at h
        rcases h with h | h
        · exact absurd h (by simp)
        · obtain ⟨u, hu, rest'⟩ := ih h
          exact ⟨u, List.mem_cons_of_mem t hu, rest'⟩
      · simp only [sweepGo, if_neg hc, if_neg hf, List.mem_cons] at h
        rcases h with h | h
        · exact absurd h (by simp)
        · obtain ⟨u, hu, rest'⟩ := ih h
          exact ⟨u, List.mem_cons_of_mem t hu, rest'⟩

/-- A pending task whose sync point has been reached and whose `Sync()`
leaves it `Finished` is discharged by the sweep: not kept, counted. -/
lemma sweepGo_cons_done (t : GPUTask) (rest : List GPUTask) (sp : Nat)
    (hsp : t.syncPoint ≤ sp) (hs : t.onSyncState = TaskState.finished) :
    (sweepGo (t :: rest) sp).1 = (sweepGo rest sp).1 ∧
      (sweepGo (t :: rest) sp).2.1 = (sweepGo rest sp).2.1 + 1 := by
  by_cases hf : t.state = TaskState.finished
  · have hc : ¬(t.syncPoint ≤ sp ∧ t.state ≠ TaskState.finished) := by simp [hf]
    simp [sweepGo, hc, hf]
  · have hc : t.syncPoint ≤ sp ∧ t.state ≠ TaskState.finished := ⟨hsp, hf⟩
    have hfs : t.sync.state = TaskState.finished := by simp [GPUTask.sync, hf, hs]
    simp [sweepGo, hc, hfs]

/-- The sweep completes at least one task when the pending list holds a
task already in the `Finished` state. -/
lemma sweepGo_pos_of_finished (sp : Nat) (t : GPUTask)
    (hf : t.state = TaskState.finished) :
    ∀ l : List GPUTask, t ∈ l → 1 ≤ (sweepGo l sp).2.1 := by
  intro l
  induction l with
  | nil =>
    intro h
    simp at h
  | cons u rest ih =>
    intro ht
    rcases List.mem_cons.mp ht with rfl | hmem
    · have hc : ¬(t.syncPoint ≤ sp ∧ t.state ≠ TaskState.finished) := by simp [hf]
      simp [sweepGo, hc, hf]
    · have h1 := ih hmem
      by_cases hc : u.syncPoint ≤ sp ∧ u.state ≠ TaskState.finished
      · by_cases hfu : u.sync.state = TaskState.finished
        · simp only [sweepGo, if_pos hc, if_pos hfu]
          omega
        · simp only [sweepGo, if_pos hc, if_neg hfu]
          omega
      · by_cases hfu : u.state = TaskState.finished
        · simp only [sweepGo, if_neg hc, if_pos hfu]
          omega
        · simp only [sweepGo, if_neg hc, if_neg hfu]
          omega

/-! ## Properties of removal and of the destructor loop -/

lemma removeTask_of_absent (l : List GPUTask) (t : GPUTask)
    (h : ∀ u ∈ l, u.id ≠ t.id) : removeTask l t = l := by
  induction l with
  | nil => rfl
  | cons u rest ih =>
    have hu : u.id ≠ t.id := h u (List.mem_cons_self u rest)
    simp [removeTask, hu, ih fun v hv => h v (List.mem_cons_of_mem u hv)]

lemma removeTask_count_self (l : List GPUTask) (t : GPUTask)
    (h : ∃ u ∈ l, u.id = t.id) :
    ((removeTask l t).map GPUTask.id).count t.id + 1
      = (l.map GPUTask.id).count t.id := by
  induction l with
  | nil => simp at h
  | cons u rest ih =>
    by_cases hu : u.id = t.id
    · simp [removeTask, hu, List.count_cons]
    · have h2 : ∃ v ∈ rest, v.id = t.id := by
        rcases h with ⟨v, hv, hvid⟩
        rcases List.mem_cons.mp hv with rfl | hvm
        · exact absurd hvid hu
        · exact ⟨v, hvm, hvid⟩
      have h3 : ¬t.id = u.id := fun e => hu e.symm
      simp only [removeTask, if_neg hu, List.map_cons, List.count_cons, if_neg h3]
      have := ih h2
      omega

lemma removeTask_count_other (l : List GPUTask) (t : GPUTask) (j : Nat)
    (hj : j ≠ t.id) :
    ((removeTask l t).map GPUTask.id).count j = (l.map GPUTask.id).count j := by
  induction l with
  | nil => rfl
  | cons u rest ih =>
    by_cases hu : u.id = t.id
    · have huj : ¬j = u.id := fun e => hj (e.trans hu)
      have huj2 : ¬t.id = j := fun e => hj e.symm
      simp [removeTask, hu, List.count_cons, huj, huj2]
    · simp [removeTask, hu, List.count_cons, ih]

lemma removeTask_filter_ne (l : List GPUTask) (t : GPUTask) :
    (removeTask l t).filter (fun u => u.id != t.id)
      = l.filter (fun u => u.id != t.id) := by
  induction l with
  | nil => rfl
  | cons u rest ih =>
    by_cases hu : u.id = t.id
    · simp [removeTask, hu]
    · simp [removeTask, hu, ih]

lemma destroyLoop_count_cancel (l : List GPUTask) (j : Nat) :
    (destroyLoop l).count (TraceEvent.cancelSync j) = (l.map GPUTask.id).count j := by
  induction l with
  | nil => rfl
  | cons t rest ih => simp [destroyLoop, List.count_cons, ih]

lemma destroyLoop_count_warn (l : List GPUTask) (j : Nat) :
    (destroyLoop l).count (TraceEvent.warn j) = (l.map GPUTask.id).count j := by
  induction l with
  | nil => rfl
  | cons t rest ih => simp [destroyLoop, List.count_cons, ih]

lemma destroyLoop_length (l : List GPUTask) :
    (destroyLoop l).length = 2 * l.length := by
  induction l with
  | nil => rfl
  | cons t rest ih =>
    simp [destroyLoop, ih]
    omega

lemma destroyLoop_eq_nil (l : List GPUTask) :
    destroyLoop l = [] ↔ l = [] := by
  cases l with
  | nil => simp [destroyLoop]
  | cons t rest => simp [destroyLoop]

/-! ## Monotonicity of the sync-point counter under every operation -/

lemma applyOp_syncPoint_le (ctx : GPUTasksContext) (op : Op) :
    ctx.currentSyncPoint ≤ (applyOp ctx op).currentSyncPoint := by
  cases op with
  | run t => simp [applyOp, GPUTasksContext.Run]
  | cancelSync t => simp [applyOp, GPUTasksContext.OnCancelSync]
  | frameBegin =>
    simp only [applyOp, OnFrameBegin_eq]
    exact Nat.le_succ _
  | frameEnd => simp [applyOp, GPUTasksContext.OnFrameEnd]

lemma applyOps_syncPoint_le (ops : List Op) :
    ∀ ctx : GPUTasksContext,
      ctx.currentSyncPoint ≤ (applyOps ctx ops).currentSyncPoint := by
  induction ops with
  | nil =>
    intro ctx
    simp [applyOps]
  | cons op ops ih =>
    intro ctx
    exact le_trans (applyOp_syncPoint_le ctx op) (ih _)

/-! ## The claims -/

/-- C2: every call to `OnFrameBegin` advances the sync-point counter by
exactly one, and over any sequence of `Run`, `OnCancelSync`,
`OnFrameBegin`, `OnFrameEnd` operations the counter never decreases. -/
theorem C2_syncPoint_strictly_monotonic (ctx : GPUTasksContext) :
    ctx.OnFrameBegin.1.currentSyncPoint = ctx.currentSyncPoint + 1 ∧
      ∀ ops : List Op, ctx.currentSyncPoint ≤ (applyOps ctx ops).currentSyncPoint := by
  constructor
  · rw [OnFrameBegin_eq]
  · intro ops
    exact applyOps_syncPoint_le ops ctx

/-- C8: immediately after construction the sync-point counter is strictly
positive (the source sets it to 10, above the zero "unset" sentinel) and
the pending list is empty. -/
theorem C8_init_positive_baseline_empty_pending :
    0 < GPUTasksContext.init.currentSyncPoint ∧
      GPUTasksContext.init.tasksDone = [] ∧
      GPUTasksContext.init.totalTasksDoneCount = 0 :=
  ⟨by decide, rfl, rfl⟩

/-- C1: with pending `[A, B, C]`, each sync point at most the context's
current one and each `Sync()` reaching `Finished`, a single
`OnFrameBegin` removes all three, visits them in submission order with
no slot skipped or visited twice, and adds exactly 3 to the completion
counter. -/
theorem C1_one_sweep_reaps_three_in_order (ctx : GPUTasksContext) (A B C : GPUTask)
    (hl : ctx.tasksDone = [A, B, C])
    (hA : A.syncPoint ≤ ctx.currentSyncPoint)
    (hB : B.syncPoint ≤ ctx.currentSyncPoint)
    (hC : C.syncPoint ≤ ctx.currentSyncPoint)
    (hsA : A.onSyncState = TaskState.finished)
    (hsB : B.onSyncState = TaskState.finished)
    (hsC : C.onSyncState = TaskState.finished) :
    ctx.OnFrameBegin.1.tasksDone = [] ∧
      ctx.OnFrameBegin.1.totalTasksDoneCount = ctx.totalTasksDoneCount + 3 ∧
      (ctx.OnFrameBegin.2).filterMap visitOf = [A.id, B.id, C.id] := by
  have dA := sweepGo_cons_done A [B, C] (ctx.currentSyncPoint + 1)
    (Nat.le_succ_of_le hA) hsA
  have dB := sweepGo_cons_done B [C] (ctx.currentSyncPoint + 1)
    (Nat.le_succ_of_le hB) hsB
  have dC := sweepGo_cons_done C [] (ctx.currentSyncPoint + 1)
    (Nat.le_succ_of_le hC) hsC
  have hnil : sweepGo ([] : List GPUTask) (ctx.currentSyncPoint + 1) = ([], 0, []) := rfl
  refine ⟨?_, ?_, ?_⟩
  · simp only [OnFrameBegin_eq, hl]
    rw [dA.1, dB.1, dC.1, hnil]
  · simp only [OnFrameBegin_eq, hl]
    rw [dA.2, dB.2, dC.2, hnil]
  · simp only [OnFrameBegin_eq, hl]
    rw [sweepGo_visits]
    simp

/-- C4: a pending task whose sync point lies strictly beyond the counter
value reached by this `OnFrameBegin` (uniquely identified in `pending` by
its identity) is never issued a `Sync()` call by that sweep. -/
theorem C4_future_task_never_force_synced (ctx : GPUTasksContext) (t : GPUTask)
    (hmem : t ∈ ctx.tasksDone)
    (huniq : ∀ u ∈ ctx.tasksDone, u.id = t.id → u = t)
    (hfar : ctx.currentSyncPoint + 1 < t.syncPoint) :
    TraceEvent.sync t.id ∉ ctx.OnFrameBegin.2 := by
  intro hev
  rw [OnFrameBegin_eq] at hev
  obtain ⟨u, hu, huid, hule, -⟩ := sweepGo_sync_src _ _ _ hev
  have hut : u = t := huniq u hu huid
  rw [hut] at hule
  omega

/-- C9: a pending task already `Finished` is removed and counted by the
sweep even when its sync point is strictly beyond the advanced counter:
removal depends on the `Finished` state alone, and the completion counter
grows by exactly the number of removed tasks. -/
theorem C9_finished_reaped_regardless_of_syncPoint (ctx : GPUTasksContext) (t : GPUTask)
    (hmem : t ∈ ctx.tasksDone)
    (hf : t.state = TaskState.finished)
    (hfar : ctx.currentSyncPoint + 1 < t.syncPoint) :
    t ∉ ctx.OnFrameBegin.1.tasksDone ∧
      ctx.OnFrameBegin.1.tasksDone.length < ctx.tasksDone.length ∧
      ctx.OnFrameBegin.1.totalTasksDoneCount
        = ctx.totalTasksDoneCount
            + (ctx.tasksDone.length - ctx.OnFrameBegin.1.tasksDone.length) := by
  have hlen := sweepGo_length ctx.tasksDone (ctx.currentSyncPoint + 1)
  have hpos := sweepGo_pos_of_finished (ctx.currentSyncPoint + 1) t hf ctx.tasksDone hmem
  refine ⟨?_, ?_, ?_⟩
  · intro hkept
    rw [OnFrameBegin_eq] at hkept
    exact sweepGo_kept_not_finished ctx.tasksDone (ctx.currentSyncPoint + 1) t hkept hf
  · simp only [OnFrameBegin_eq]
    omega
  · simp only [OnFrameBegin_eq]
    omega

/-- C5: destroying the context with `N` pending tasks emits exactly one
warning and one `CancelSync()` call per pending task (so `2N` observable
events, `N` of them cancellations, counted per task identity) and leaves
the pending list empty; with no pending tasks nothing is emitted. -/
theorem C5_destroy_cancels_each_pending_once (ctx : GPUTasksContext) :
    ctx.destroy.1.tasksDone = [] ∧
      ctx.destroy.2.length = 2 * ctx.tasksDone.length ∧
      (∀ j, ctx.destroy.2.count (TraceEvent.cancelSync j)
          = (ctx.tasksDone.map GPUTask.id).count j) ∧
      (∀ j, ctx.destroy.2.count (TraceEvent.warn j)
          = (ctx.tasksDone.map GPUTask.id).count j) ∧
      (ctx.destroy.2 = [] ↔ ctx.tasksDone = []) := by
  refine ⟨rfl, destroyLoop_length _, fun j => destroyLoop_count_cancel _ j,
    fun j => destroyLoop_count_warn _ j, destroyLoop_eq_nil _⟩

/-- C6: `Run` on a task not already pending appends it at the end of the
pending list — all previously pending tasks stay in place, in order — and
then invokes the task's `Execute`; the appended entry is the executed
task. -/
theorem C6_run_appends_then_executes (ctx : GPUTasksContext) (t : GPUTask)
    (hfresh : ∀ u ∈ ctx.tasksDone, u.id ≠ t.id) :
    (ctx.Run t).1.tasksDone.length = ctx.tasksDone.length + 1 ∧
      (ctx.Run t).1.tasksDone.take ctx.tasksDone.length = ctx.tasksDone ∧
      (ctx.Run t).1.tasksDone.getLast? = some t.execute ∧
      (t.execute).state = t.onExecuteState ∧
      (ctx.Run t).2 = [TraceEvent.execute t.id] := by
  refine ⟨?_, ?_, ?_, rfl, rfl⟩
  · simp [GPUTasksContext.Run]
  · simp [GPUTasksContext.Run, List.take_left]
  · simp [GPUTasksContext.Run]

/-- C7: `OnCancelSync` removes the task from pending when present (its
identity's multiplicity drops by one, every other entry and their order
are untouched) and is a pure no-op on the context state when the task is
absent; in neither case does the context call `CancelSync` on the task,
and the counters are unchanged. -/
theorem C7_onCancelSync_removes_or_noop (ctx : GPUTasksContext) (t : GPUTask) :
    ((∀ u ∈ ctx.tasksDone, u.id ≠ t.id) → (ctx.OnCancelSync t).1 = ctx) ∧
      ((∃ u ∈ ctx.tasksDone, u.id = t.id) →
        ((ctx.OnCancelSync t).1.tasksDone.map GPUTask.id).count t.id + 1
          = (ctx.tasksDone.map GPUTask.id).count t.id) ∧
      (∀ j, j ≠ t.id →
        ((ctx.OnCancelSync t).1.tasksDone.map GPUTask.id).count j
          = (ctx.tasksDone.map GPUTask.id).count j) ∧
      ((ctx.OnCancelSync t).1.tasksDone.filter (fun u => u.id != t.id)
          = ctx.tasksDone.filter (fun u => u.id != t.id)) ∧
      (∀ j, TraceEvent.cancelSync j ∉ (ctx.OnCancelSync t).2) ∧
      (ctx.OnCancelSync t).1.currentSyncPoint = ctx.currentSyncPoint ∧
      (ctx.OnCancelSync t).1.totalTasksDoneCount = ctx.totalTasksDoneCount := by
  refine ⟨?_, ?_, ?_, ?_, ?_, rfl, rfl⟩
  · intro habs
    cases ctx with
    | mk l sp total =>
      simp [GPUTasksContext.OnCancelSync, removeTask_of_absent l t habs]
  · intro hpres
    exact removeTask_count_self ctx.tasksDone t hpres
  · intro j hj
    exact removeTask_count_other ctx.tasksDone t j hj
  · exact removeTask_filter_ne ctx.tasksDone t
  · intro j hev
    simp [GPUTasksContext.OnCancelSync] at hev

/-- C10: `Run` removes nothing from pending and touches no other field:
every previously pending task is still pending, the submitted task is
pending after `Run` returns — even when its `Execute` completed it
synchronously (state already `Finished`) — and the sync-point and
completion counters are unchanged. -/
theorem C10_run_never_removes (ctx : GPUTasksContext) (t : GPUTask) :
    (∀ u ∈ ctx.tasksDone, u ∈ (ctx.Run t).1.tasksDone) ∧
      t.execute ∈ (ctx.Run t).1.tasksDone ∧
      (t.onExecuteState = TaskState.finished →
        (t.execute).state = TaskState.finished ∧
          t.execute ∈ (ctx.Run t).1.tasksDone) ∧
      (ctx.Run t).1.tasksDone.length = ctx.tasksDone.length + 1 ∧
      (ctx.Run t).1.currentSyncPoint = ctx.currentSyncPoint ∧
      (ctx.Run t).1.totalTasksDoneCount = ctx.totalTasksDoneCount := by
  refine ⟨?_, ?_, ?_, ?_, rfl, rfl⟩
  · intro u hu
    simp [GPUTasksContext.Run, hu]
  · simp [GPUTasksContext.Run]
  · intro hdone
    exact ⟨by simp [GPUTask.execute, hdone], by simp [GPUTasksContext.Run]⟩
  · simp [GPUTasksContext.Run]

/-- A concrete task whose sync point is one frame ahead of the freshly
constructed context (`10 + 1`), whose `Execute` leaves it running and
whose `Sync` finishes it. -/
def taskNextFrame : GPUTask :=
  { id := 0, syncPoint := 11, state := TaskState.queued,
    onSyncState := TaskState.finished, onExecuteState := TaskState.running }

/-- C3 as stated is false: submitted to a fresh context with
`syncPoint = currentSyncPoint + 1`, the task does *not* remain pending
after the first `OnFrameBegin` — the counter is incremented before the
`<=` comparison, so the very first sweep syncs and removes it and bumps
the completion counter to 1. -/
theorem C3_counterexample_first_frame_reaps :
    taskNextFrame.syncPoint = GPUTasksContext.init.currentSyncPoint + 1 ∧
      taskNextFrame.onSyncState = TaskState.finished ∧
      (GPUTasksContext.init.Run taskNextFrame).1.OnFrameBegin.1.tasksDone = [] ∧
      (GPUTasksContext.init.Run taskNextFrame).1.OnFrameBegin.1.totalTasksDoneCount = 1 := by
  refine ⟨rfl, rfl, ?_, ?_⟩
  · rw [OnFrameBegin_eq]
    decide
  · rw [OnFrameBegin_eq]
    decide

/-- C3 amended: the two-frame scenario holds for a task submitted with
`syncPoint` equal to the context's current sync point plus **two** (the
claim's "plus one" is reaped on the first sweep, since the counter is
incremented before the `<=` comparison). Such a task survives the first
`OnFrameBegin` un-synced and is synced, observed `Finished`, removed and
counted on the second. -/
theorem C3_amended_second_frame_reaps (ctx : GPUTasksContext) (A : GPUTask)
    (h0 : ctx.tasksDone = [])
    (h1 : A.syncPoint = ctx.currentSyncPoint + 2)
    (h2 : A.onExecuteState ≠ TaskState.finished)
    (h3 : A.onSyncState = TaskState.finished) :
    (ctx.Run A).1.OnFrameBegin.1.tasksDone = [A.execute] ∧
      (∀ j, TraceEvent.sync j ∉ (ctx.Run A).1.OnFrameBegin.2) ∧
      (ctx.Run A).1.OnFrameBegin.1.OnFrameBegin.1.tasksDone = [] ∧
      (ctx.Run A).1.OnFrameBegin.1.OnFrameBegin.1.totalTasksDoneCount
        = ctx.totalTasksDoneCount + 1 ∧
      TraceEvent.sync A.id ∈ (ctx.Run A).1.OnFrameBegin.1.OnFrameBegin.2 := by
  have hexe : A.execute.syncPoint = A.syncPoint ∧ A.execute.state = A.onExecuteState
      ∧ A.execute.id = A.id ∧ A.execute.onSyncState = A.onSyncState :=
    ⟨rfl, rfl, rfl, rfl⟩
  have s1 : sweepGo [A.execute] (ctx.currentSyncPoint + 1)
      = ([A.execute], 0, [TraceEvent.visit A.id]) := by
    have hle : ¬A.execute.syncPoint ≤ ctx.currentSyncPoint + 1 := by
      rw [hexe.1, h1]
      omega
    have hnf : ¬A.execute.state = TaskState.finished := by
      rw [hexe.2.1]
      exact h2
    simp [sweepGo, hle, hnf, hexe.2.2.1]
  have s2 : sweepGo [A.execute] (ctx.currentSyncPoint + 1 + 1)
      = ([], 1, [TraceEvent.visit A.id, TraceEvent.sync A.id]) := by
    have hc : A.execute.syncPoint ≤ ctx.currentSyncPoint + 1 + 1
        ∧ A.execute.state ≠ TaskState.finished := by
      constructor
      · rw [hexe.1, h1]
      · rw [hexe.2.1]
        exact h2
    have hf : (A.execute).sync.state = TaskState.finished := by
      simp [GPUTask.sync, hexe.2.1, h2, hexe.2.2.2, h3, GPUTask.execute]
    simp [sweepGo, hc, hf, hexe.2.2.1]
  have hrun : ctx.Run A
      = ({ tasksDone := [A.execute], currentSyncPoint := ctx.currentSyncPoint,
           totalTasksDoneCount := ctx.totalTasksDoneCount },
         [TraceEvent.execute A.id]) := by
    cases ctx with
    | mk l sp tot =>
      change l = [] at h0
      subst h0
      rfl
  rw [hrun]
  simp only []
  rw [OnFrameBegin_eq]
  simp only [s1]
  rw [OnFrameBegin_eq]
  simp only [s1, s2]
  simp

/-! ## Concrete inputs for the witnesses -/

/-- Concrete task: sync point 5, queued, would finish on sync. -/
def wA : GPUTask := ⟨1, 5, TaskState.queued, TaskState.finished, TaskState.running⟩

/-- Concrete task: sync point 10, running, would finish on sync. -/
def wB : GPUTask := ⟨2, 10, TaskState.running, TaskState.finished, TaskState.running⟩

/-- Concrete task: sync point 7, already finished. -/
def wC : GPUTask := ⟨3, 7, TaskState.finished, TaskState.finished, TaskState.running⟩

/-- Concrete context pending `[wA, wB, wC]` at sync point 10. -/
def wctxC1 : GPUTasksContext := ⟨[wA, wB, wC], 10, 4⟩

/-- Concrete task with sync point two frames ahead of a fresh context. -/
def wA3 : GPUTask := ⟨7, 12, TaskState.queued, TaskState.finished, TaskState.running⟩

/-- Concrete task with a far-future sync point. -/
def wT4 : GPUTask := ⟨5, 100, TaskState.running, TaskState.finished, TaskState.running⟩

/-- Concrete context pending `[wT4]` at sync point 10. -/
def wctxC4 : GPUTasksContext := ⟨[wT4], 10, 0⟩

/-- Concrete context with two pending tasks, for destruction. -/
def wctxC5 : GPUTasksContext :=
  ⟨[⟨1, 30, TaskState.running, TaskState.finished, TaskState.running⟩,
    ⟨2, 31, TaskState.queued, TaskState.finished, TaskState.running⟩], 20, 2⟩

/-- Concrete task to submit. -/
def wT6 : GPUTask := ⟨9, 15, TaskState.queued, TaskState.finished, TaskState.running⟩

/-- Concrete context with one pending task of a different identity. -/
def wctxC6 : GPUTasksContext :=
  ⟨[⟨4, 11, TaskState.running, TaskState.finished, TaskState.running⟩], 10, 0⟩

/-- Concrete pending task to cancel. -/
def wT7 : GPUTask := ⟨3, 12, TaskState.running, TaskState.finished, TaskState.running⟩

/-- Concrete task absent from the pending list. -/
def wT7abs : GPUTask := ⟨99, 12, TaskState.running, TaskState.finished, TaskState.running⟩

/-- Concrete context pending a task of identity 2 and `wT7`. -/
def wctxC7 : GPUTasksContext :=
  ⟨[⟨2, 11, TaskState.running, TaskState.finished, TaskState.running⟩, wT7], 10, 1⟩

/-- Concrete already-finished task with a far-future sync point. -/
def wT9 : GPUTask := ⟨6, 50, TaskState.finished, TaskState.finished, TaskState.running⟩

/-- Concrete context pending `[wT9]` at sync point 10. -/
def wctxC9 : GPUTasksContext := ⟨[wT9], 10, 3⟩

/-- Concrete task whose `Execute` finishes it synchronously. -/
def wT10 : GPUTask := ⟨8, 10, TaskState.queued, TaskState.finished, TaskState.finished⟩

/-! ## Witnesses -/

/-- Witness for C1 at a concrete context with three due tasks. -/
theorem C1_witness :
    wctxC1.OnFrameBegin.1.tasksDone = [] ∧
      wctxC1.OnFrameBegin.1.totalTasksDoneCount = wctxC1.totalTasksDoneCount + 3 ∧
      wctxC1.OnFrameBegin.2.filterMap visitOf = [wA.id, wB.id, wC.id] :=
  C1_one_sweep_reaps_three_in_order wctxC1 wA wB wC rfl (by decide) (by decide)
    (by decide) rfl rfl rfl

/-- Witness for the amended C3 at a fresh context and a task due two
frames ahead. -/
theorem C3_witness :
    (GPUTasksContext.init.Run wA3).1.OnFrameBegin.1.tasksDone = [wA3.execute] ∧
      (∀ j, TraceEvent.sync j ∉ (GPUTasksContext.init.Run wA3).1.OnFrameBegin.2) ∧
      (GPUTasksContext.init.Run wA3).1.OnFrameBegin.1.OnFrameBegin.1.tasksDone = [] ∧
      (GPUTasksContext.init.Run wA3).1.OnFrameBegin.1.OnFrameBegin.1.totalTasksDoneCount
        = GPUTasksContext.init.totalTasksDoneCount + 1 ∧
      TraceEvent.sync wA3.id
        ∈ (GPUTasksContext.init.Run wA3).1.OnFrameBegin.1.OnFrameBegin.2 :=
  C3_amended_second_frame_reaps GPUTasksContext.init wA3 rfl (by decide) (by decide) rfl

/-- Witness for C4 at a concrete context with a far-future task. -/
theorem C4_witness : TraceEvent.sync wT4.id ∉ wctxC4.OnFrameBegin.2 :=
  C4_future_task_never_force_synced wctxC4 wT4 (by decide) (by decide) (by decide)

/-- Witness for C5 at a concrete context with two pending tasks. -/
theorem C5_witness :
    wctxC5.destroy.1.tasksDone = [] ∧
      wctxC5.destroy.2.length = 2 * wctxC5.tasksDone.length ∧
      wctxC5.destroy.2.count (TraceEvent.cancelSync 1)
        = (wctxC5.tasksDone.map GPUTask.id).count 1 ∧
      wctxC5.destroy.2.count (TraceEvent.warn 2)
        = (wctxC5.tasksDone.map GPUTask.id).count 2 :=
  ⟨(C5_destroy_cancels_each_pending_once wctxC5).1,
   (C5_destroy_cancels_each_pending_once wctxC5).2.1,
   (C5_destroy_cancels_each_pending_once wctxC5).2.2.1 1,
   (C5_destroy_cancels_each_pending_once wctxC5).2.2.2.1 2⟩

/-- Witness for C6 at a concrete context and fresh task. -/
theorem C6_witness :
    (wctxC6.Run wT6).1.tasksDone.length = wctxC6.tasksDone.length + 1 ∧
      (wctxC6.Run wT6).1.tasksDone.take wctxC6.tasksDone.length = wctxC6.tasksDone ∧
      (wctxC6.Run wT6).1.tasksDone.getLast? = some wT6.execute ∧
      wT6.execute.state = wT6.onExecuteState ∧
      (wctxC6.Run wT6).2 = [TraceEvent.execute wT6.id] :=
  C6_run_appends_then_executes wctxC6 wT6 (by decide)

/-- Witness for C7: removal of a present task, no-op on an absent one,
and no `CancelSync` call, all at concrete inputs. -/
theorem C7_witness :
    ((wctxC7.OnCancelSync wT7).1.tasksDone.map GPUTask.id).count wT7.id + 1
        = (wctxC7.tasksDone.map GPUTask.id).count wT7.id ∧
      (wctxC7.OnCancelSync wT7).1.tasksDone.filter (fun u => u.id != wT7.id)
        = wctxC7.tasksDone.filter (fun u => u.id != wT7.id) ∧
      (wctxC7.OnCancelSync wT7abs).1 = wctxC7 ∧
      TraceEvent.cancelSync wT7.id ∉ (wctxC7.OnCancelSync wT7).2 :=
  ⟨(C7_onCancelSync_removes_or_noop wctxC7 wT7).2.1 ⟨wT7, by decide, rfl⟩,
   (C7_onCancelSync_removes_or_noop wctxC7 wT7).2.2.2.1,
   (C7_onCancelSync_removes_or_noop wctxC7 wT7abs).1 (by decide),
   (C7_onCancelSync_removes_or_noop wctxC7 wT7).2.2.2.2.1 wT7.id⟩

/-- Witness for C9 at a concrete context with one already-finished task
whose sync point lies far in the future. -/
theorem C9_witness :
    wT9 ∉ wctxC9.OnFrameBegin.1.tasksDone ∧
      wctxC9.OnFrameBegin.1.tasksDone.length < wctxC9.tasksDone.length ∧
      wctxC9.OnFrameBegin.1.totalTasksDoneCount
        = wctxC9.totalTasksDoneCount
            + (wctxC9.tasksDone.length - wctxC9.OnFrameBegin.1.tasksDone.length) :=
  C9_finished_reaped_regardless_of_syncPoint wctxC9 wT9 (by decide) rfl (by decide)

/-- Witness for C10 at a fresh context and a task finished by its own
`Execute`. -/
theorem C10_witness :
    wT10.execute ∈ (GPUTasksContext.init.Run wT10).1.tasksDone ∧
      (wT10.execute.state = TaskState.finished ∧
        wT10.execute ∈ (GPUTasksContext.init.Run wT10).1.tasksDone) ∧
      (GPUTasksContext.init.Run wT10).1.tasksDone.length
        = GPUTasksContext.init.tasksDone.length + 1 ∧
      (GPUTasksContext.init.Run wT10).1.currentSyncPoint
        = GPUTasksContext.init.currentSyncPoint ∧
      (GPUTasksContext.init.Run wT10).1.totalTasksDoneCount
        = GPUTasksContext.init.totalTasksDoneCount :=
  ⟨(C10_run_never_removes GPUTasksContext.init wT10).2.1,
   (C10_run_never_removes GPUTasksContext.init wT10).2.2.1 rfl,
   (C10_run_never_removes GPUTasksContext.init wT10).2.2.2.1,
   (C10_run_never_removes GPUTasksContext.init wT10).2.2.2.2.1,
   (C10_run_never_removes GPUTasksContext.init wT10).2.2.2.2.2⟩
